import Mathlib

/-!
Shallow embedding of the Secret Santa bot core (src/ded.py):
the pairing algorithm `create_santa_pairs`, the room / membership
operations (`get_room_by_code`, `count_room_participants`,
`join_room_by_code`, room creation in `process_room_name`), the
invite-code allocation loop, and the broadcast dispatcher
`send_broadcast` with its campaign ledger (`broadcasts` table).

Randomness (`random.shuffle`, `generate_invite_code`) and external
delivery outcomes are parameters of the embedding: a shuffle is an
arbitrary permutation of the input, the code generator is an arbitrary
stream of strings, and each delivery attempt's success is a `Bool`.
-/

namespace Ded

/-! ## Pairing engine (src/ded.py, `create_santa_pairs`, lines 1200-1219) -/

/-- The pair-construction loop of `create_santa_pairs`:
`for i in range(len(shuffled)): pairs.append((shuffled[i], shuffled[(i+1) % len(shuffled)]))`. -/
def santa_pairs_loop (shuffled : List ℕ) : List (ℕ × ℕ) :=
  (List.range shuffled.length).map fun i =>
    (shuffled.getD i 0, shuffled.getD ((i + 1) % shuffled.length) 0)

/-- `create_santa_pairs(user_ids, room_id)`: returns `[]` when fewer than two
members; otherwise shuffles the ids and links every position to the next one
cyclically.  The result of `random.shuffle` is passed in as `shuffled`,
an arbitrary permutation of `user_ids`. -/
def create_santa_pairs (user_ids shuffled : List ℕ) : List (ℕ × ℕ) :=
  if user_ids.length < 2 then []
  else santa_pairs_loop shuffled

/-! Helper lemmas about the pair loop. -/

theorem range_map_getD (l : List ℕ) (d : ℕ) :
    (List.range l.length).map (fun i => l.getD i d) = l := by
  induction l with
  | nil => simp
  | cons a t ih =>
    rw [List.length_cons, List.range_succ_eq_map, List.map_cons, List.map_map]
    have hcomp : ((fun i => (a :: t).getD i d) ∘ Nat.succ) = fun i => t.getD i d := by
      funext i
      simp [List.getD_cons_succ]
    rw [hcomp, ih]
    simp

theorem santa_pairs_loop_map_fst (shuffled : List ℕ) :
    (santa_pairs_loop shuffled).map Prod.fst = shuffled := by
  unfold santa_pairs_loop
  rw [List.map_map]
  exact range_map_getD shuffled 0

theorem santa_pairs_loop_map_snd (shuffled : List ℕ) :
    (santa_pairs_loop shuffled).map Prod.snd = shuffled.rotate 1 := by
  unfold santa_pairs_loop
  rw [List.map_map]
  have hlen : (shuffled.rotate 1).length = shuffled.length := by
    simp [List.length_rotate]
  have := range_map_getD (shuffled.rotate 1) 0
  rw [hlen] at this
  rw [← this]
  apply List.map_congr_left
  intro i hi
  have hi' : i < shuffled.length := List.mem_range.mp hi
  have hi'' : i < (shuffled.rotate 1).length := by rw [hlen]; exact hi'
  have hmod : (i + 1) % shuffled.length < shuffled.length :=
    Nat.mod_lt _ (by omega)
  simp only [Function.comp]
  rw [List.getD_eq_getElem _ _ hmod, List.getD_eq_getElem _ _ hi'']
  rw [List.getElem_rotate]

theorem santa_pairs_loop_length (shuffled : List ℕ) :
    (santa_pairs_loop shuffled).length = shuffled.length := by
  simp [santa_pairs_loop]

theorem santa_pairs_loop_no_self (shuffled : List ℕ)
    (hnd : shuffled.Nodup) (h2 : 2 ≤ shuffled.length) :
    ∀ p ∈ santa_pairs_loop shuffled, p.1 ≠ p.2 := by
  intro p hp
  unfold santa_pairs_loop at hp
  rw [List.mem_map] at hp
  obtain ⟨i, hi, hpeq⟩ := hp
  have hi' : i < shuffled.length := List.mem_range.mp hi
  have hmod : (i + 1) % shuffled.length < shuffled.length :=
    Nat.mod_lt _ (by omega)
  subst hpeq
  simp only
  rw [List.getD_eq_getElem _ _ hi', List.getD_eq_getElem _ _ hmod]
  intro hcontra
  have hidx : i = (i + 1) % shuffled.length :=
    (List.Nodup.getElem_inj_iff hnd).mp hcontra
  rcases Nat.lt_or_ge (i + 1) shuffled.length with hlt | hge
  · rw [Nat.mod_eq_of_lt hlt] at hidx; omega
  · have : i + 1 = shuffled.length := by omega
    rw [this, Nat.mod_self] at hidx
    omega

/-- C1: for every list of distinct member ids with `n ≥ 2` and every
permutation `shuffled` drawn by the shuffle, `create_santa_pairs` returns
exactly `n` pairs, the santa ids are a permutation of the input members,
the recipient ids are a permutation of the input members, and no pair is a
self-pair. -/
theorem create_santa_pairs_correct (user_ids shuffled : List ℕ)
    (hnd : user_ids.Nodup) (h2 : 2 ≤ user_ids.length)
    (hperm : shuffled.Perm user_ids) :
    (create_santa_pairs user_ids shuffled).length = user_ids.length ∧
    ((create_santa_pairs user_ids shuffled).map Prod.fst).Perm user_ids ∧
    ((create_santa_pairs user_ids shuffled).map Prod.snd).Perm user_ids ∧
    ∀ p ∈ create_santa_pairs user_ids shuffled, p.1 ≠ p.2 := by
  have hlen : shuffled.length = user_ids.length := hperm.length_eq
  have hne : ¬ user_ids.length < 2 := by omega
  have hcsp : create_santa_pairs user_ids shuffled = santa_pairs_loop shuffled := by
    simp [create_santa_pairs, hne]
  rw [hcsp]
  refine ⟨by rw [santa_pairs_loop_length, hlen], ?_, ?_, ?_⟩
  · rw [santa_pairs_loop_map_fst]; exact hperm
  · rw [santa_pairs_loop_map_snd]
    exact (shuffled.rotate_perm 1).trans hperm
  · exact santa_pairs_loop_no_self shuffled (hperm.nodup_iff.mpr hnd) (by omega)

/-- Witness for C1 at members `[1,2,3]` with shuffle `[2,3,1]`. -/
theorem create_santa_pairs_correct_witness :
    ([1, 2, 3] : List ℕ).Nodup ∧ 2 ≤ ([1, 2, 3] : List ℕ).length ∧
    ([2, 3, 1] : List ℕ).Perm [1, 2, 3] ∧
    ((create_santa_pairs [1, 2, 3] [2, 3, 1]).length = ([1, 2, 3] : List ℕ).length ∧
     ((create_santa_pairs [1, 2, 3] [2, 3, 1]).map Prod.fst).Perm [1, 2, 3] ∧
     ((create_santa_pairs [1, 2, 3] [2, 3, 1]).map Prod.snd).Perm [1, 2, 3] ∧
     ∀ p ∈ create_santa_pairs [1, 2, 3] [2, 3, 1], p.1 ≠ p.2) :=
  ⟨by decide, by decide, by decide,
   create_santa_pairs_correct [1, 2, 3] [2, 3, 1] (by decide) (by decide) (by decide)⟩

/-- C9: for member lists of length 0 or 1, `create_santa_pairs` returns
the empty list, whatever the shuffle produced. -/
theorem create_santa_pairs_small (user_ids shuffled : List ℕ)
    (h : user_ids.length ≤ 1) :
    create_santa_pairs user_ids shuffled = [] := by
  simp [create_santa_pairs]
  omega

/-- Witness for C9 at the singleton member list `[7]`. -/
theorem create_santa_pairs_small_witness :
    ([7] : List ℕ).length ≤ 1 ∧ create_santa_pairs [7] [7] = [] :=
  ⟨by decide, create_santa_pairs_small [7] [7] (by decide)⟩

/-! ## Rooms and memberships (src/ded.py, `rooms` / `room_participants` tables) -/

/-- A row of the `rooms` table. -/
structure Room where
  id : ℕ
  name : String
  owner_id : ℕ
  invite_code : String
  max_participants : ℕ
  is_active : Bool
  exchange_started : Bool
  deriving Repr, DecidableEq

/-- The database state the room claims touch: the `rooms` rows plus the
`room_participants` rows, the latter as `(room_id, user_id)` pairs in
insertion (`joined_at`) order. -/
structure DBState where
  rooms : List Room
  participants : List (ℕ × ℕ)
  deriving Repr, DecidableEq

/-- `get_room_by_code`:
`SELECT * FROM rooms WHERE invite_code = ? AND is_active = 1`. -/
def get_room_by_code (s : DBState) (code : String) : Option Room :=
  s.rooms.find? fun r => r.invite_code == code && r.is_active

/-- `count_room_participants`:
`SELECT COUNT(*) FROM room_participants WHERE room_id = ?`. -/
def count_room_participants (s : DBState) (room_id : ℕ) : ℕ :=
  (s.participants.filter fun p => p.1 == room_id).length

/-- The outcome a join attempt reports back to the user. -/
inductive JoinResult where
  | notFound
  | alreadyMember
  | roomFull
  | exchangeStarted
  | joined (newCount : ℕ)
  deriving Repr, DecidableEq

/-- `join_room_by_code(message, invite_code)` for the user `user_id`:
resolve the code among active rooms; reject a duplicate membership; reject
when the participant count has reached `max_participants`; reject when the
room's exchange has started; otherwise insert the membership row.  Returns
the reported outcome together with the database state after the call. -/
def join_room_by_code (s : DBState) (code : String) (user_id : ℕ) :
    JoinResult × DBState :=
  match get_room_by_code s code with
  | none => (.notFound, s)
  | some room =>
    if s.participants.any fun p => p.1 == room.id && p.2 == user_id then
      (.alreadyMember, s)
    else if room.max_participants ≤ count_room_participants s room.id then
      (.roomFull, s)
    else if room.exchange_started then
      (.exchangeStarted, s)
    else
      (.joined (count_room_participants s room.id + 1),
       { s with participants := s.participants ++ [(room.id, user_id)] })

theorem get_room_by_code_participants (s : DBState) (ps : List (ℕ × ℕ))
    (code : String) :
    get_room_by_code { s with participants := ps } code =
      get_room_by_code s code := rfl

/-- A concrete state for the C2 counterexample: an exchange-started room at
capacity (`max_participants = 1`, one member). -/
def c2_state : DBState :=
  { rooms := [{ id := 1, name := "r", owner_id := 10, invite_code := "AAAAAAAA",
                max_participants := 1, is_active := true, exchange_started := true }],
    participants := [(1, 10)] }

/-- C2 counterexample: on a full room whose exchange has started, a
non-member's join returns `roomFull`, not the exchange-started error — the
capacity check runs first in `join_room_by_code`. -/
theorem join_exchange_started_not_precedent :
    (join_room_by_code c2_state "AAAAAAAA" 20).1 = JoinResult.roomFull ∧
    (join_room_by_code c2_state "AAAAAAAA" 20).1 ≠ JoinResult.exchangeStarted := by
  decide

/-- C2 amended: for a room whose exchange has started and a user who is not
yet a member, join returns the exchange-started error when the room is below
capacity and `roomFull` when it is at capacity (the capacity rejection takes
precedence); in both cases no membership is inserted. -/
theorem join_exchange_started_rejected (s : DBState) (code : String)
    (user_id : ℕ) (room : Room)
    (hfind : get_room_by_code s code = some room)
    (hstarted : room.exchange_started = true)
    (hmem : ¬ (s.participants.any fun p => p.1 == room.id && p.2 == user_id)) :
    (join_room_by_code s code user_id).1 =
      (if count_room_participants s room.id < room.max_participants then
        JoinResult.exchangeStarted else JoinResult.roomFull) ∧
    (join_room_by_code s code user_id).2 = s := by
  unfold join_room_by_code
  rw [hfind]
  simp only [hmem, if_false, hstarted]
  rcases Nat.lt_or_ge (count_room_participants s room.id) room.max_participants
    with hlt | hge
  · have : ¬ room.max_participants ≤ count_room_participants s room.id := by omega
    simp [this, hlt]
  · have : room.max_participants ≤ count_room_participants s room.id := hge
    have hnlt : ¬ count_room_participants s room.id < room.max_participants := by omega
    simp [this, hnlt]

/-- Witness for the amended C2 on an exchange-started room below capacity. -/
theorem join_exchange_started_rejected_witness :
    get_room_by_code
        { rooms := [{ id := 1, name := "r", owner_id := 10, invite_code := "BBBBBBBB",
                      max_participants := 5, is_active := true, exchange_started := true }],
          participants := [(1, 10)] } "BBBBBBBB" =
      some { id := 1, name := "r", owner_id := 10, invite_code := "BBBBBBBB",
             max_participants := 5, is_active := true, exchange_started := true } ∧
    (join_room_by_code
        { rooms := [{ id := 1, name := "r", owner_id := 10, invite_code := "BBBBBBBB",
                      max_participants := 5, is_active := true, exchange_started := true }],
          participants := [(1, 10)] } "BBBBBBBB" 20).1 = JoinResult.exchangeStarted := by
  refine ⟨by decide, ?_⟩
  have h := join_exchange_started_rejected
    { rooms := [{ id := 1, name := "r", owner_id := 10, invite_code := "BBBBBBBB",
                  max_participants := 5, is_active := true, exchange_started := true }],
      participants := [(1, 10)] } "BBBBBBBB" 20
    { id := 1, name := "r", owner_id := 10, invite_code := "BBBBBBBB",
      max_participants := 5, is_active := true, exchange_started := true }
    (by decide) (by decide) (by decide)
  rw [h.1]
  decide

/-- C6: when a join succeeds, an identical second join returns
`alreadyMember`, leaves the database unchanged, and every room's
participant count after the second call equals its count after the first. -/
theorem join_twice_already_member (s s₁ : DBState) (code : String)
    (user_id k : ℕ)
    (h : join_room_by_code s code user_id = (JoinResult.joined k, s₁)) :
    join_room_by_code s₁ code user_id = (JoinResult.alreadyMember, s₁) ∧
    ∀ rid, count_room_participants (join_room_by_code s₁ code user_id).2 rid =
      count_room_participants s₁ rid := by
  unfold join_room_by_code at h
  cases hfind : get_room_by_code s code with
  | none => rw [hfind] at h; exact absurd (congrArg Prod.fst h) (by simp)
  | some room =>
    rw [hfind] at h
    dsimp only at h
    by_cases hmem : (s.participants.any fun p => p.1 == room.id && p.2 == user_id) = true
    · rw [if_pos hmem] at h; exact absurd (congrArg Prod.fst h) (by simp)
    · rw [if_neg hmem] at h
      by_cases hfull : room.max_participants ≤ count_room_participants s room.id
      · rw [if_pos hfull] at h; exact absurd (congrArg Prod.fst h) (by simp)
      · rw [if_neg hfull] at h
        by_cases hst : room.exchange_started = true
        · rw [if_pos hst] at h; exact absurd (congrArg Prod.fst h) (by simp)
        · rw [if_neg hst] at h
          have hs₁ : s₁ = { s with participants := s.participants ++ [(room.id, user_id)] } :=
            (congrArg Prod.snd h).symm
          have hfind₁ : get_room_by_code s₁ code = some room := by
            rw [hs₁, get_room_by_code_participants, hfind]
          have hmem₁ : s₁.participants.any fun p => p.1 == room.id && p.2 == user_id := by
            rw [hs₁]
            simp
          have hjoin : join_room_by_code s₁ code user_id = (JoinResult.alreadyMember, s₁) := by
            unfold join_room_by_code
            rw [hfind₁]
            dsimp only
            rw [if_pos hmem₁]
          refine ⟨hjoin, ?_⟩
          intro rid
          rw [hjoin]

/-- A concrete open room state for the C6 witness. -/
def c6_s0 : DBState :=
  { rooms := [{ id := 1, name := "r", owner_id := 10, invite_code := "CCCCCCCC",
                max_participants := 30, is_active := true, exchange_started := false }],
    participants := [(1, 10)] }

/-- `c6_s0` after user 20 joined room 1. -/
def c6_s1 : DBState :=
  { rooms := [{ id := 1, name := "r", owner_id := 10, invite_code := "CCCCCCCC",
                max_participants := 30, is_active := true, exchange_started := false }],
    participants := [(1, 10), (1, 20)] }

/-- Witness for C6: a fresh user joins an open room, then joins again. -/
theorem join_twice_already_member_witness :
    join_room_by_code c6_s0 "CCCCCCCC" 20 = (JoinResult.joined 2, c6_s1) ∧
    join_room_by_code c6_s1 "CCCCCCCC" 20 = (JoinResult.alreadyMember, c6_s1) := by
  refine ⟨by decide, ?_⟩
  exact (join_twice_already_member c6_s0 c6_s1 "CCCCCCCC" 20 2 (by decide)).1

/-- C7: on an open room at or above capacity, a non-member's join returns
`roomFull` and leaves the database (hence the participant count) unchanged. -/
theorem join_room_full (s : DBState) (code : String) (user_id : ℕ) (room : Room)
    (hfind : get_room_by_code s code = some room)
    (_hopen : room.exchange_started = false)
    (hmem : ¬ (s.participants.any fun p => p.1 == room.id && p.2 == user_id))
    (hfull : room.max_participants ≤ count_room_participants s room.id) :
    join_room_by_code s code user_id = (JoinResult.roomFull, s) := by
  unfold join_room_by_code
  rw [hfind]
  dsimp only
  rw [if_neg hmem, if_pos hfull]

/-- Witness for C7, the spec scenario: `max_participants = 2`, two members,
a third user's join returns `roomFull` and the count stays 2. -/
theorem join_room_full_witness :
    join_room_by_code
        { rooms := [{ id := 1, name := "r", owner_id := 10, invite_code := "DDDDDDDD",
                      max_participants := 2, is_active := true, exchange_started := false }],
          participants := [(1, 10), (1, 20)] } "DDDDDDDD" 30 =
      (JoinResult.roomFull,
       { rooms := [{ id := 1, name := "r", owner_id := 10, invite_code := "DDDDDDDD",
                     max_participants := 2, is_active := true, exchange_started := false }],
         participants := [(1, 10), (1, 20)] }) ∧
    count_room_participants
        { rooms := [{ id := 1, name := "r", owner_id := 10, invite_code := "DDDDDDDD",
                      max_participants := 2, is_active := true, exchange_started := false }],
          participants := [(1, 10), (1, 20)] } 1 = 2 := by
  refine ⟨?_, by decide⟩
  exact join_room_full _ "DDDDDDDD" 30
    { id := 1, name := "r", owner_id := 10, invite_code := "DDDDDDDD",
      max_participants := 2, is_active := true, exchange_started := false }
    (by decide) (by decide) (by decide) (by decide)

/-! ## Room creation (src/ded.py, `process_room_name`, lines 482-500) -/

/-- The creation step of `process_room_name`: insert the room (schema
defaults `max_participants = 30`, `is_active = 1`, `exchange_started = 0`)
and insert the creator as a participant.  `new_id` is the autoincrement id
the insert produced. -/
def create_room (s : DBState) (name : String) (owner_id : ℕ) (code : String)
    (new_id : ℕ) : DBState :=
  { rooms := s.rooms ++
      [{ id := new_id, name := name, owner_id := owner_id, invite_code := code,
         max_participants := 30, is_active := true, exchange_started := false }],
    participants := s.participants ++ [(new_id, owner_id)] }

/-- Every room's owner appears among its room's participants. -/
def owner_is_member (s : DBState) : Prop :=
  ∀ r ∈ s.rooms, (r.id, r.owner_id) ∈ s.participants

instance (s : DBState) : Decidable (owner_is_member s) := by
  unfold owner_is_member
  infer_instance

/-- C10: creating a room inserts the owner as its first participant — the
new room's count is 1 and the owner is a member — and both implemented
state-changing operations (`create_room`, `join_room_by_code`) preserve the
invariant that every room's owner is among its participants. -/
theorem create_room_owner_member (s : DBState) (name : String)
    (owner_id : ℕ) (code : String) (new_id : ℕ)
    (hfresh : ∀ p ∈ s.participants, p.1 ≠ new_id) :
    count_room_participants (create_room s name owner_id code new_id) new_id = 1 ∧
    (new_id, owner_id) ∈ (create_room s name owner_id code new_id).participants ∧
    (owner_is_member s →
      owner_is_member (create_room s name owner_id code new_id)) ∧
    (∀ (t : DBState) (c : String) (u : ℕ),
      owner_is_member t → owner_is_member (join_room_by_code t c u).2) := by
  refine ⟨?_, ?_, ?_, ?_⟩
  · unfold count_room_participants create_room
    rw [List.filter_append, List.length_append]
    have h1 : (s.participants.filter fun p => p.1 == new_id) = [] := by
      rw [List.filter_eq_nil_iff]
      intro p hp
      simpa using hfresh p hp
    rw [h1]
    simp
  · unfold create_room
    simp
  · intro hinv r hr
    unfold create_room at hr ⊢
    simp only [List.mem_append] at hr ⊢
    rcases hr with hr | hr
    · exact Or.inl (hinv r hr)
    · simp only [List.mem_singleton] at hr
      subst hr
      simp
  · intro t c u hinv
    unfold join_room_by_code
    cases hfind : get_room_by_code t c with
    | none => exact hinv
    | some room =>
      dsimp only
      by_cases hmem : (t.participants.any fun p => p.1 == room.id && p.2 == u) = true
      · rw [if_pos hmem]; exact hinv
      · rw [if_neg hmem]
        by_cases hfull : room.max_participants ≤ count_room_participants t room.id
        · rw [if_pos hfull]; exact hinv
        · rw [if_neg hfull]
          by_cases hst : room.exchange_started = true
          · rw [if_pos hst]; exact hinv
          · rw [if_neg hst]
            intro r hr
            simp only [List.mem_append]
            exact Or.inl (hinv r hr)

/-- Witness for C10: creating room 2 in a state that already holds room 1. -/
theorem create_room_owner_member_witness :
    (∀ p ∈ c6_s0.participants, p.1 ≠ 2) ∧
    (count_room_participants (create_room c6_s0 "t" 10 "EEEEEEEE" 2) 2 = 1 ∧
     (2, 10) ∈ (create_room c6_s0 "t" 10 "EEEEEEEE" 2).participants ∧
     (owner_is_member c6_s0 →
       owner_is_member (create_room c6_s0 "t" 10 "EEEEEEEE" 2)) ∧
     (∀ (t : DBState) (c : String) (u : ℕ),
       owner_is_member t → owner_is_member (join_room_by_code t c u).2)) :=
  ⟨by decide, create_room_owner_member c6_s0 "t" 10 "EEEEEEEE" 2 (by decide)⟩

/-! ## Invite-code allocation (src/ded.py, `process_room_name`, lines 482-485) -/

/-- The allocation loop
`invite_code = generate_invite_code(); while get_room_by_code(invite_code): invite_code = generate_invite_code()`.
`gen` is the stream of codes `generate_invite_code` draws, `k` the index of
the next draw; `fuel` bounds the number of iterations so the recursion is
total (`none` means the bound ran out, which the unbounded loop has no
analogue of). -/
def alloc_invite_code (s : DBState) (gen : ℕ → String) :
    ℕ → ℕ → Option String
  | _, 0 => none
  | k, fuel + 1 =>
    match get_room_by_code s (gen k) with
    | some _ => alloc_invite_code s gen (k + 1) fuel
    | none => some (gen k)

/-- C8: whenever the allocation loop terminates with a code, that code
differs from the invite code of every active room, and each collision makes
the loop draw a fresh code and retry. -/
theorem alloc_invite_code_unique (s : DBState) (gen : ℕ → String)
    (k fuel : ℕ) (c : String)
    (halloc : alloc_invite_code s gen k fuel = some c) :
    (∀ r ∈ s.rooms, r.is_active = true → r.invite_code ≠ c) ∧
    (∀ (k' fuel' : ℕ) (room : Room),
      get_room_by_code s (gen k') = some room →
      alloc_invite_code s gen k' (fuel' + 1) =
        alloc_invite_code s gen (k' + 1) fuel') := by
  constructor
  · induction fuel generalizing k with
    | zero => exact absurd halloc (by simp [alloc_invite_code])
    | succ n ih =>
      unfold alloc_invite_code at halloc
      cases hfind : get_room_by_code s (gen k) with
      | some room =>
        rw [hfind] at halloc
        exact ih _ halloc
      | none =>
        rw [hfind] at halloc
        have hc : gen k = c := by simpa using halloc
        subst hc
        intro r hr hact hcode
        have : s.rooms.find? (fun r => r.invite_code == gen k && r.is_active) = none :=
          hfind
        rw [List.find?_eq_none] at this
        have := this r hr
        simp [hcode, hact] at this
  · intro k' fuel' room hfind
    show (match get_room_by_code s (gen k') with
          | some _ => alloc_invite_code s gen (k' + 1) fuel'
          | none => some (gen k')) = alloc_invite_code s gen (k' + 1) fuel'
    rw [hfind]

/-! ## Broadcast dispatcher (src/ded.py, `send_broadcast`, lines 966-1018) -/

/-- The delivery loop of `send_broadcast`.  `outcomes` records, per target
in order, whether `bot.send_message` succeeds for it; `total` is the
`total_users` argument; `sent` and `failed` are the running counters
`sent_count` / `failed_count`, and `progress` collects the cumulative
counts reported to the admin chat
(`if sent_count % 10 == 0 or sent_count == total_users`). -/
def send_broadcast_loop (total : ℕ) :
    List Bool → ℕ → ℕ → List ℕ → ℕ × ℕ × List ℕ
  | [], sent, failed, progress => (sent, failed, progress)
  | ok :: rest, sent, failed, progress =>
    if ok then
      send_broadcast_loop total rest (sent + 1) failed
        (if (sent + 1) % 10 == 0 || sent + 1 == total then progress ++ [sent + 1]
         else progress)
    else
      send_broadcast_loop total rest sent (failed + 1) progress

/-- `send_broadcast(bot, message, total_users, broadcast_id, admin_chat_id)`
reduced to its observable counters: final `(sent_count, failed_count)` and
the list of progress counts reported along the way. -/
def send_broadcast (outcomes : List Bool) (total : ℕ) : ℕ × ℕ × List ℕ :=
  send_broadcast_loop total outcomes 0 0 []

theorem send_broadcast_loop_counts (total : ℕ) (outcomes : List Bool) :
    ∀ sent failed progress,
      (send_broadcast_loop total outcomes sent failed progress).1 =
        sent + outcomes.count true ∧
      (send_broadcast_loop total outcomes sent failed progress).2.1 =
        failed + outcomes.count false := by
  induction outcomes with
  | nil => intro sent failed progress; simp [send_broadcast_loop]
  | cons ok rest ih =>
    intro sent failed progress
    cases ok with
    | true =>
      rw [send_broadcast_loop, if_pos rfl]
      refine ⟨?_, ?_⟩
      · rw [(ih _ _ _).1]
        simp [List.count_cons]
        omega
      · rw [(ih _ _ _).2]
        simp [List.count_cons]
    | false =>
      rw [send_broadcast_loop, if_neg (by simp)]
      refine ⟨?_, ?_⟩
      · rw [(ih _ _ _).1]
        simp [List.count_cons]
      · rw [(ih _ _ _).2]
        simp [List.count_cons]
        omega

theorem count_true_add_count_false (outcomes : List Bool) :
    outcomes.count true + outcomes.count false = outcomes.length := by
  induction outcomes with
  | nil => simp
  | cons ok rest ih =>
    cases ok <;> simp [List.count_cons] <;> omega

/-- C4: over `n` targets of which exactly `k` fail, the dispatcher attempts
every target exactly once — each attempt counted either as sent or as
failed, so `sent + failed = n` — never aborts the batch, and ends with
`sent = n - k` and `failed = k`; this holds for any `total` argument. -/
theorem send_broadcast_summary (outcomes : List Bool) (total k : ℕ)
    (hk : outcomes.count false = k) :
    (send_broadcast outcomes total).1 = outcomes.length - k ∧
    (send_broadcast outcomes total).2.1 = k ∧
    (send_broadcast outcomes total).1 + (send_broadcast outcomes total).2.1 =
      outcomes.length := by
  have h := send_broadcast_loop_counts total outcomes 0 0 []
  have hlen := count_true_add_count_false outcomes
  unfold send_broadcast
  refine ⟨?_, ?_, ?_⟩
  · rw [h.1]; omega
  · rw [h.2]; omega
  · rw [h.1, h.2]; omega

/-- Witness for C4: five targets, the second and fifth fail. -/
theorem send_broadcast_summary_witness :
    ([true, false, true, true, false] : List Bool).count false = 2 ∧
    ((send_broadcast [true, false, true, true, false] 5).1 =
        ([true, false, true, true, false] : List Bool).length - 2 ∧
     (send_broadcast [true, false, true, true, false] 5).2.1 = 2 ∧
     (send_broadcast [true, false, true, true, false] 5).1 +
        (send_broadcast [true, false, true, true, false] 5).2.1 =
       ([true, false, true, true, false] : List Bool).length) :=
  ⟨by decide, send_broadcast_summary [true, false, true, true, false] 5 2 (by decide)⟩

theorem send_broadcast_loop_progress (total : ℕ) (outcomes : List Bool) :
    ∀ sent failed progress,
      (send_broadcast_loop total outcomes sent failed progress).2.2 =
        progress ++
          ((List.range (outcomes.count true)).map fun j => sent + j + 1).filter
            (fun x => x % 10 == 0 || x == total) := by
  induction outcomes with
  | nil => intro sent failed progress; simp [send_broadcast_loop]
  | cons ok rest ih =>
    intro sent failed progress
    cases ok with
    | false =>
      rw [send_broadcast_loop, if_neg (by simp)]
      rw [ih]
      simp [List.count_cons]
    | true =>
      rw [send_broadcast_loop, if_pos rfl]
      rw [ih]
      have hcount : (true :: rest).count true = rest.count true + 1 := by
        simp [List.count_cons]
      rw [hcount, List.range_succ_eq_map, List.map_cons, List.map_map]
      have hcomp : ((fun j => sent + j + 1) ∘ Nat.succ) = fun j => (sent + 1) + j + 1 := by
        funext j
        simp [Function.comp]
        omega
      rw [hcomp, List.filter_cons]
      by_cases hcond : ((sent + 1) % 10 == 0 || sent + 1 == total) = true
      · rw [if_pos hcond, if_pos hcond, List.append_assoc, List.singleton_append]
      · rw [if_neg hcond, if_neg hcond]

/-- The progress counts `send_broadcast` reports: the successful-delivery
counts `1..count true` that are multiples of 10 or equal to `total`. -/
theorem send_broadcast_progress (outcomes : List Bool) (total : ℕ) :
    (send_broadcast outcomes total).2.2 =
      ((List.range (outcomes.count true)).map fun j => j + 1).filter
        (fun x => x % 10 == 0 || x == total) := by
  unfold send_broadcast
  rw [send_broadcast_loop_progress]
  simp

/-- C3 counterexample: 23 targets where the last delivery fails — the
observer is invoked with counts 10 and 20 only; no invocation happens
after the last target is attempted and no cumulative count for the whole
batch is ever reported, contradicting the claim's "additionally invokes it
exactly once after the last target is attempted ... regardless of how many
deliveries failed". -/
theorem send_broadcast_no_final_call_on_failure :
    (send_broadcast (List.replicate 22 true ++ [false]) 23).2.2 = [10, 20] := by
  decide

/-- C3 amended: the observer is invoked exactly after those successful
deliveries whose cumulative sent count is a multiple of 10 or equals the
total; hence when all `n` deliveries succeed (`n ≥ 1`) it is additionally
invoked exactly once with the cumulative count `n` regardless of `n % 10` —
in particular with 23 all-succeeding targets the counts are 10, 20, 23 —
but when at least one delivery fails, no invocation reports `n`. -/
theorem send_broadcast_observer_calls (outcomes : List Bool) (n : ℕ)
    (hn : outcomes.length = n) :
    (send_broadcast outcomes n).2.2 =
      ((List.range (outcomes.count true)).map fun j => j + 1).filter
        (fun x => x % 10 == 0 || x == n) ∧
    (outcomes.count true = n → 1 ≤ n →
      ((send_broadcast outcomes n).2.2).count n = 1) ∧
    (outcomes.count true < n → n ∉ (send_broadcast outcomes n).2.2) ∧
    send_broadcast (List.replicate 23 true) 23 = (23, 0, [10, 20, 23]) := by
  subst hn
  refine ⟨send_broadcast_progress outcomes _, ?_, ?_, by decide⟩
  · intro hall h1
    rw [send_broadcast_progress, hall]
    have hnd : (((List.range outcomes.length).map fun j => j + 1).filter
        (fun x => x % 10 == 0 || x == outcomes.length)).Nodup := by
      apply List.Nodup.filter
      exact (List.nodup_range _).map (fun a b => by omega)
    have hmem : outcomes.length ∈
        ((List.range outcomes.length).map fun j => j + 1).filter
          (fun x => x % 10 == 0 || x == outcomes.length) := by
      rw [List.mem_filter]
      constructor
      · rw [List.mem_map]
        exact ⟨outcomes.length - 1, List.mem_range.mpr (by omega), by omega⟩
      · simp
    exact List.count_eq_one_of_mem hnd hmem
  · intro hlt hmem
    rw [send_broadcast_progress] at hmem
    rw [List.mem_filter, List.mem_map] at hmem
    obtain ⟨⟨j, hj, hje⟩, _⟩ := hmem
    rw [List.mem_range] at hj
    omega

/-- Witness for C3 amended at 23 all-succeeding targets. -/
theorem send_broadcast_observer_calls_witness :
    (List.replicate 23 true : List Bool).length = 23 ∧
    ((send_broadcast (List.replicate 23 true) 23).2.2 =
      ((List.range ((List.replicate 23 true : List Bool).count true)).map
          fun j => j + 1).filter (fun x => x % 10 == 0 || x == 23) ∧
     ((List.replicate 23 true : List Bool).count true = 23 → 1 ≤ 23 →
       ((send_broadcast (List.replicate 23 true) 23).2.2).count 23 = 1) ∧
     ((List.replicate 23 true : List Bool).count true < 23 →
       23 ∉ (send_broadcast (List.replicate 23 true) 23).2.2) ∧
     send_broadcast (List.replicate 23 true) 23 = (23, 0, [10, 20, 23])) :=
  ⟨by decide, send_broadcast_observer_calls (List.replicate 23 true) 23 (by decide)⟩

/-! ## Broadcast ledger (src/ded.py, `broadcasts` table,
`callback_broadcast_confirm_yes` lines 931-937, `send_broadcast` lines 995-1000) -/

/-- A row of the `broadcasts` table (schema defaults
`sent_users = 0`, `failed_users = 0`). -/
structure BroadcastRow where
  admin_id : ℕ
  message : String
  total_users : ℕ
  sent_users : ℕ
  failed_users : ℕ
  deriving Repr, DecidableEq

/-- `INSERT INTO broadcasts (admin_id, message, total_users) VALUES (?, ?, ?)`. -/
def record_broadcast (admin_id : ℕ) (msg : String) (total : ℕ) : BroadcastRow :=
  { admin_id := admin_id, message := msg, total_users := total,
    sent_users := 0, failed_users := 0 }

/-- `UPDATE broadcasts SET sent_users = ?, failed_users = ? WHERE id = ?`. -/
def finalize_broadcast (row : BroadcastRow) (sent failed : ℕ) : BroadcastRow :=
  { row with sent_users := sent, failed_users := failed }

/-- The successive versions of one campaign's row over a sequential run:
the row as recorded by `callback_broadcast_confirm_yes`, followed by one
version per write `send_broadcast` performs on it — a single `UPDATE` at
the end of the loop. -/
def broadcast_row_history (admin_id : ℕ) (msg : String)
    (outcomes : List Bool) : List BroadcastRow :=
  let row := record_broadcast admin_id msg outcomes.length
  let r := send_broadcast outcomes outcomes.length
  [row, finalize_broadcast row r.1 r.2.1]

/-- C5: over a sequential campaign run, the recorded row starts with
`sent = failed = 0`, the counters are written once (the history holds the
recorded version and exactly one further version, from the final update),
and every version satisfies `sent + failed ≤ total`. -/
theorem broadcast_row_history_invariant (admin_id : ℕ) (msg : String)
    (outcomes : List Bool) :
    (broadcast_row_history admin_id msg outcomes).head? =
      some (record_broadcast admin_id msg outcomes.length) ∧
    (record_broadcast admin_id msg outcomes.length).sent_users = 0 ∧
    (record_broadcast admin_id msg outcomes.length).failed_users = 0 ∧
    (broadcast_row_history admin_id msg outcomes).length = 2 ∧
    ∀ row ∈ broadcast_row_history admin_id msg outcomes,
      row.sent_users + row.failed_users ≤ row.total_users := by
  refine ⟨rfl, rfl, rfl, rfl, ?_⟩
  intro row hrow
  have hcounts := send_broadcast_loop_counts outcomes.length outcomes 0 0 []
  have hlen := count_true_add_count_false outcomes
  unfold broadcast_row_history at hrow
  simp only [List.mem_cons, List.not_mem_nil, or_false] at hrow
  rcases hrow with hrow | hrow
  · subst hrow; simp [record_broadcast]
  · subst hrow
    unfold finalize_broadcast record_broadcast send_broadcast
    simp only
    rw [hcounts.1, hcounts.2]
    omega

/-- Witness for C8: the first draw collides with the active room's code,
the second draw succeeds. -/
theorem alloc_invite_code_unique_witness :
    alloc_invite_code c6_s0 (fun k => if k = 0 then "CCCCCCCC" else "FFFFFFFF") 0 2 =
      some "FFFFFFFF" ∧
    ∀ r ∈ c6_s0.rooms, r.is_active = true → r.invite_code ≠ "FFFFFFFF" :=
  ⟨by decide,
   (alloc_invite_code_unique c6_s0
     (fun k => if k = 0 then "CCCCCCCC" else "FFFFFFFF") 0 2 "FFFFFFFF" (by decide)).1⟩

end Ded
